import Mathlib

/-!
Verification of the Keebie event-to-action pipeline (src/keebie.py).

The Python source is shallowly embedded: Python floats (timestamps and the
timing settings) are modelled as rationals, Python lists as Lean lists,
JSON documents as structured values, and side effects (prints, process
spawns via os.system, LED writes) as an explicit effect list.  A raised
Python exception is modelled as `Except.error` carrying the exception name;
effects emitted before a raise are not recorded, which is irrelevant for the
claims settled here.  All definitions are executable.
-/

namespace Keebie

/-- Drop the trailing characters of a char list satisfying `p`
(the semantics of Python's `str.rstrip`). -/
def dropTrailing (p : Char → Bool) (l : List Char) : List Char :=
  (l.reverse.dropWhile p).reverse

/-- `keyLedger.newKeysStr`/`downKeysStr` build `k1+k2+...+` by concatenation;
this is that concatenation before the final `rstrip("+")`. -/
def plusConcat : List String → List Char
  | [] => []
  | k :: ks => k.data ++ '+' :: plusConcat ks

/-- Concatenate keycodes with `+` and strip trailing `+` characters,
exactly as `keyLedger.downKeysStr` does. -/
def plusJoin (ks : List String) : String :=
  ⟨dropTrailing (fun c => c == '+') (plusConcat ks)⟩

/-- Code-point lexicographic order on char lists: the order Python uses to
compare strings. -/
def charsLe : List Char → List Char → Bool
  | [], _ => true
  | _ :: _, [] => false
  | a :: as, b :: bs =>
      if a.toNat < b.toNat then true
      else if b.toNat < a.toNat then false
      else charsLe as bs

/-- Python's `s1 <= s2` on strings (lexicographic by code point). -/
def keyLe (a b : String) : Bool := charsLe a.data b.data

/-- Insert a key into a `keyLe`-ascending list, keeping it ascending. -/
def insertKey (k : String) : List String → List String
  | [] => [k]
  | x :: xs => if keyLe k x then k :: x :: xs else x :: insertKey k xs

/-- Python's `list.sort()` on strings produces the unique ascending
(code-point lexicographic) reordering of the list; insertion sort with the
same total order produces the same list. -/
def sortKeys : List String → List String
  | [] => []
  | x :: xs => insertKey x (sortKeys xs)

/-- The three settings read by `keyLedger` methods (from the global
`settings` dict): `multiKeyMode`, `holdThreshold`, `flushTimeout`. -/
structure LedgerCfg where
  multiKeyMode : String
  holdThreshold : ℚ
  flushTimeout : ℚ
deriving DecidableEq, Repr

/-- One element of the iterable passed to `keyLedger.update`: a key-down (or
key-hold) event, a key-up event, each carrying `event.timestamp()`, or `None`
(a timer tick, whose `stateChange`/`stateDuration` calls fall back to
`time.time()`, the wall-clock time of the poll, carried here as `t`). -/
inductive KeyEvent where
  | down (k : String) (t : ℚ)
  | up (k : String) (t : ℚ)
  | tick (t : ℚ)
deriving DecidableEq, Repr

/-- The timestamp used by the body of `keyLedger.update` for an event. -/
def KeyEvent.time : KeyEvent → ℚ
  | .down _ t => t
  | .up _ t => t
  | .tick t => t

/-- The state of `keyLedger`: `state` is 0,1,2,3 for rising, falling,
holding, stale; `warnings` records the untracked-key-release messages the
Python code prints. -/
structure KeyLedger where
  state : Nat
  stateChangeStamp : ℚ
  peaking : Bool
  history : String
  histories : List String
  newKeys : List String
  lostKeys : List String
  downKeys : List String
  warnings : List String
deriving DecidableEq, Repr

/-- `keyLedger.__init__`, constructed at wall-clock time `t`. -/
def keyLedgerInit (t : ℚ) : KeyLedger :=
  ⟨3, t, false, "", [], [], [], [], []⟩

namespace KeyLedger

/-- `keyLedger.downKeysStr`. -/
def downKeysStr (l : KeyLedger) : String := plusJoin l.downKeys

/-- `keyLedger.stateChange`: record the timestamp only when the state
actually changes. -/
def stateChange (l : KeyLedger) (newState : Nat) (t : ℚ) : KeyLedger :=
  if l.state = newState then l
  else { l with state := newState, stateChangeStamp := t }

/-- `keyLedger.stateDuration` at timestamp `t`. -/
def stateDuration (l : KeyLedger) (t : ℚ) : ℚ := t - l.stateChangeStamp

/-- `keyLedger.addHistoryEntry` as called from `update` (entry and held
defaulted): entry is the current down keys, `held` is true iff the duration
of the current state at `t` exceeds `holdThreshold`. -/
def addHistoryEntry (cfg : LedgerCfg) (l : KeyLedger) (t : ℚ) : KeyLedger :=
  let entry := l.downKeysStr
  let entry := if l.stateDuration t > cfg.holdThreshold then entry ++ "+HELD" else entry
  { l with history := if l.history ≠ "" then l.history ++ "-" ++ entry else entry }

/-- `keyLedger.flushHistory`. -/
def flushHistory (l : KeyLedger) : KeyLedger :=
  { l with histories := l.histories ++ [l.history], history := "" }

/-- `keyLedger.popHistory`: FIFO pop, returning `""` when no history is
available. -/
def popHistory (l : KeyLedger) : String × KeyLedger :=
  match l.histories with
  | [] => ("", l)
  | h :: rest => (h, { l with histories := rest })

/-- The event-kind dispatch at the top of the `for event in events` loop of
`keyLedger.update` (after `newKeys`/`lostKeys` have been reset): record a new
key, a lost key, or the untracked-release warning. -/
def noteEvent (l : KeyLedger) : KeyEvent → KeyLedger
  | .down k _ => if k ∈ l.downKeys then l else { l with newKeys := [k] }
  | .up k _ =>
      if k ∈ l.downKeys then { l with lostKeys := [k] }
      else { l with warnings := l.warnings ++ ["Untracked key " ++ k ++ " released."] }
  | .tick _ => l

/-- The rising edge of `keyLedger.update`: merge the new keys into the down
keys (sorting them in combination mode), mark peaking, enter state 0. -/
def riseStep (cfg : LedgerCfg) (l : KeyLedger) (t : ℚ) : KeyLedger :=
  let dk := l.downKeys ++ l.newKeys
  let dk := if cfg.multiKeyMode = "combination" then sortKeys dk else dk
  stateChange { l with downKeys := dk, peaking := true } 0 t

/-- The falling edge of `keyLedger.update`: record the peak into the history
buffer (if peaking), remove the lost keys, enter state 1. -/
def fallStep (cfg : LedgerCfg) (l : KeyLedger) (t : ℚ) : KeyLedger :=
  let l3 := if l.peaking then { addHistoryEntry cfg l t with peaking := false } else l
  let l4 := { l3 with downKeys := l3.lostKeys.foldl (fun dk k => dk.erase k) l3.downKeys }
  stateChange l4 1 t

/-- The stale branch of `keyLedger.update`: enter state 3, then flush the
history buffer when the stale duration surpassed `flushTimeout` and the
buffer is non-empty. -/
def staleStep (cfg : LedgerCfg) (l : KeyLedger) (t : ℚ) : KeyLedger × Bool :=
  let l3 := stateChange l 3 t
  if l3.stateDuration t > cfg.flushTimeout ∧ l3.history ≠ "" then
    (flushHistory l3, true)
  else (l3, false)

/-- The `if`/`elif` state-decision chain of `keyLedger.update`. -/
def decideState (cfg : LedgerCfg) (l : KeyLedger) (t : ℚ) : KeyLedger × Bool :=
  if l.newKeys ≠ [] then (riseStep cfg l t, false)
  else if l.lostKeys ≠ [] then (fallStep cfg l t, false)
  else if l.downKeys ≠ [] then (stateChange l 2 t, false)
  else staleStep cfg l t

/-- The body of the `for event in events` loop of `keyLedger.update`,
for one event.  Returns the new ledger and whether a history was flushed. -/
def updateOne (cfg : LedgerCfg) (l0 : KeyLedger) (ev : KeyEvent) : KeyLedger × Bool :=
  decideState cfg
    (noteEvent { l0 with newKeys := ([] : List String), lostKeys := ([] : List String) } ev)
    ev.time

/-- One iteration of the `for event in events` loop together with the
accumulation of the `flushedHistory` flag. -/
def updateStep (cfg : LedgerCfg) (acc : KeyLedger × Bool) (ev : KeyEvent) : KeyLedger × Bool :=
  ((updateOne cfg acc.1 ev).1, acc.2 || (updateOne cfg acc.1 ev).2)

/-- `keyLedger.update` over a batch of events; the returned Bool is true iff
any event of the batch flushed a history. -/
def update (cfg : LedgerCfg) (l : KeyLedger) (evs : List KeyEvent) : KeyLedger × Bool :=
  evs.foldl (updateStep cfg) (l, false)

end KeyLedger

/-! ### Command resolution (`parseVars`, `macroDevice.processKeycode`, `setLeds`) -/

/-- Does `pat` lead (is it an initial segment of) `cs`?  Python's
`str.startswith` on the underlying characters. -/
def charsLead : List Char → List Char → Bool
  | [], _ => true
  | _ :: _, [] => false
  | p :: ps, c :: cs => p == c && charsLead ps cs

/-- Python's `s.startswith(pat)`. -/
def pyStartsWith (s pat : String) : Bool := charsLead pat.data s.data

/-- Python's `s.endswith(pat)`. -/
def pyEndsWith (s pat : String) : Bool := charsLead pat.data.reverse s.data.reverse

/-- The whitespace characters removed by Python's `str.strip()`. -/
def pySpace (c : Char) : Bool :=
  c == ' ' || c == '\t' || c == '\n' || c == '\r' || c == '\x0b' || c == '\x0c'

/-- Python's `s.strip()`. -/
def pyStrip (s : String) : String :=
  ⟨dropTrailing pySpace (s.data.dropWhile pySpace)⟩

/-- Python's `s.rstrip(" &")` as used in `processKeycode`. -/
def rstripSpaceAmp (s : String) : String :=
  ⟨dropTrailing (fun c => c == ' ' || c == '&') s.data⟩

/-- Python's `s.split(':')[-1]`: the segment after the last colon
(the whole string when there is no colon). -/
def lastColonSeg (s : String) : String :=
  ⟨(s.data.reverse.takeWhile (fun c => !(c == ':'))).reverse⟩

/-- A layer JSON document: chord-string bindings to command strings, the
optional `"vars"` mapping and the optional `"leds"` list. -/
structure Layer where
  bindings : List (String × String)
  vars : Option (List (String × String))
  leds : Option (List Nat)
deriving DecidableEq, Repr

/-- `layerJson["vars"][name]`: `none` models the `KeyError` raised when
either the `"vars"` key or the variable name is missing. -/
def varsLookup (j : Layer) (name : String) : Option String :=
  match j.vars with
  | none => none
  | some vs => vs.lookup name

/-- Observable side effects of command processing: a line printed to stdout,
a command handed to `os.system`, or an LED write on the device. -/
inductive Effect where
  | print (s : String)
  | execute (cmd : String)
  | setLed (led : Nat) (lit : Bool)
deriving DecidableEq, Repr

/-- The character scanner of `parseVars`: `escaped`/`inVar`/`varName` are the
loop variables, `acc` the output built so far.  On a variable name missing
from the layer vars the whole scan returns `""` along with the printed
diagnostic, exactly like the `except KeyError` branch. -/
def parseVarsGo (cmd0 : String) (j : Layer) :
    List Char → Bool → Bool → List Char → List Char → String × List Effect
  | [], _, _, _, acc => (⟨acc⟩, [])
  | c :: rest, escaped, inVar, varName, acc =>
    if escaped then parseVarsGo cmd0 j rest false inVar varName (acc ++ [c])
    else if c == '\\' then parseVarsGo cmd0 j rest true inVar varName acc
    else if !inVar && c == '%' then parseVarsGo cmd0 j rest false true varName acc
    else if inVar && c == '%' then
      match varsLookup j ⟨varName⟩ with
      | some v => parseVarsGo cmd0 j rest false false [] (acc ++ v.data)
      | none =>
          ("", [.print ("unknown var " ++ String.mk varName ++ " in command "
                        ++ cmd0 ++ ", skiping command")])
    else if inVar then parseVarsGo cmd0 j rest false inVar (varName ++ [c]) acc
    else parseVarsGo cmd0 j rest false inVar varName (acc ++ [c])

/-- `parseVars(commandStr, layerJson)`: substitute `%name%` variables from the
layer's vars; `\` escapes the next character; an unresolved non-empty (or
empty) variable name yields `""` plus a diagnostic print. -/
def parseVars (cmd : String) (j : Layer) : String × List Effect :=
  parseVarsGo cmd j cmd.data false false [] []

/-- The filesystem of layer documents under `layerDir`, keyed by filename;
lookup takes the first (most recent) entry. -/
abbrev Fs := List (String × Layer)

/-- Merge-write of a document: the new entry shadows the old one for lookups
(`writeJson` semantics, which also creates the file if missing). -/
def writeJsonLeds (fs : Fs) (name : String) (val : List Nat) : Fs :=
  let prev := ((fs.lookup name).getD ⟨[], none, none⟩)
  (name, { prev with leds := some val }) :: fs

/-- `createLayer(filename)`.  The default template document it copies is
shipped under `installDataDir` and is not part of src/; modelled from the
spec ("materializes a new layer document seeded from a default template") as
an empty document.  The OS-level file copy is modelled as succeeding. -/
def createLayer (fs : Fs) (name : String) : Fs :=
  (name, (⟨[], none, none⟩ : Layer)) :: fs

/-- A `macroDevice`: its current layer name, the cached current-layer
document (`_currentLayerJson`), and the device's LED capability list
(`device.capabilities()[17]` when the device has LEDs, else `none`). -/
structure Device where
  name : String
  currentLayer : String
  cache : Option Layer
  capLeds : Option (List Nat)
deriving DecidableEq, Repr

/-- The `currentLayer` property setter: records the new layer name and
invalidates the cached layer document. -/
def setCurrentLayer (d : Device) (name : String) : Device :=
  { d with currentLayer := name, cache := none }

/-- The `currentLayerJson` property: return the cached document, loading it
with `readJson` (and caching it) when invalid.  A missing layer file is the
uncaught `FileNotFoundError` of `open`. -/
def currentLayerJson (d : Device) (fs : Fs) : Except String (Layer × Device) :=
  match d.cache with
  | some j => .ok (j, d)
  | none =>
    match fs.lookup d.currentLayer with
    | some j => .ok (j, { d with cache := some j })
    | none => .error ("FileNotFoundError: " ++ d.currentLayer)

/-- `macroDevice.setLeds`: set the device LEDs from the current layer's
`leds` list; when the layer has no `leds` property, write an empty list into
it, invalidate the cache, and turn every LED off -- that last loop indexes
`capabilities()[17]` unguarded, a `KeyError` when the device has no LEDs.
(The print and the document write preceding that raise are discarded with
the error, as this model does not observe effects of aborted runs.) -/
def setLeds (d0 : Device) (fs : Fs) : Except String (Device × Fs × List Effect) :=
  match currentLayerJson d0 fs with
  | .error e => .error e
  | .ok (j, d) =>
    match j.leds with
    | some onLeds =>
      match d.capLeds with
      | some leds => .ok (d, fs, leds.map (fun led => .setLed led (onLeds.contains led)))
      | none => .ok (d, fs, [])
    | none =>
      let fs1 := writeJsonLeds fs d.currentLayer []
      let d1 := { d with cache := (none : Option Layer) }
      match d1.capLeds with
      | some leds =>
          .ok (d1, fs1, Effect.print ("Layer " ++ d.currentLayer ++ " has no leds property, writing empty")
                        :: leds.map (fun led => .setLed led false))
      | none => .error "KeyError: 17"

/-- The two settings read by `processKeycode` from the global `settings`. -/
structure ExecCfg where
  forceBackground : Bool
  backgroundInversion : Bool
deriving DecidableEq, Repr

/-- The `scriptTypes` table, in its insertion order. -/
def scriptTypes : List (String × String) :=
  [("script:", "bash "), ("py:", "python "), ("py2:", "python2 "),
   ("py3:", "python3 "), ("exec:", "")]

/-- `scriptDir` (`~` stands for the user's home directory). -/
def scriptDir : String := "~/.config/keebie/scripts"

/-- `os.path.join` as used with `scriptDir` (second argument relative). -/
def pyPathJoin (a b : String) : String := a ++ "/" ++ b

/-- The `for scriptType, prefix in scriptTypes.items()` loop: the rewritten
command for the first matching script-type marker, `none` when no marker
matches (the loop's `else` branch). -/
def findScript (value : String) : Option String :=
  (scriptTypes.find? (fun p => pyStartsWith value p.1)).map
    (fun p => p.2 ++ pyPathJoin scriptDir (lastColonSeg value))

/-- `macroDevice.processKeycode`: look the history string up in the current
layer, substitute variables, then either perform a layer switch (update the
current layer, creating the target document if missing, and refresh LEDs) or
normalize the background marker, resolve script-type markers, and hand the
result to `os.system`. -/
def processKeycode (cfg : ExecCfg) (d0 : Device) (keycode : String) (fs : Fs) :
    Except String (Device × Fs × List Effect) :=
  match currentLayerJson d0 fs with
  | .error e => .error e
  | .ok (j, d) =>
    match j.bindings.lookup keycode with
    | none => .ok (d, fs, [])
    | some raw =>
      let pv := parseVars raw j
      let value := pv.1
      if pyStartsWith value "layer:" then
        let jfile := lastColonSeg value ++ ".json"
        let missing := (fs.lookup jfile).isNone
        let fs1 := if missing then createLayer fs jfile else fs
        let crEffs : List Effect :=
          if missing then [.print ("Created layer file: " ++ jfile)] else []
        let d1 := setCurrentLayer d jfile
        match setLeds d1 fs1 with
        | .error e => .error e
        | .ok (d2, fs2, ledEffs) => .ok (d2, fs2, pv.2 ++ crEffs ++ ledEffs)
      else
        let v1 := pyStrip value
        let v2 := if cfg.forceBackground && !pyEndsWith v1 "&" then v1 ++ " &" else v1
        let v3 :=
          if cfg.backgroundInversion && !pyEndsWith v2 "&" then v2 ++ " &"
          else if pyEndsWith v2 "&" && cfg.backgroundInversion then rstripSpaceAmp v2
          else v2
        match findScript v3 with
        | some v4 => .ok (d, fs, pv.2 ++ [.print ("Executing " ++ v4), .execute v4])
        | none => .ok (d, fs, pv.2 ++ [.print (keycode ++ ": " ++ v3),
                                       .print ("Executing " ++ v3), .execute v3])

/-- The effect list of a completed `processKeycode`/`setLeds` run (a raised
run has no recorded effects). -/
def effectsOf (r : Except String (Device × Fs × List Effect)) : List Effect :=
  match r with
  | .ok (_, _, effs) => effs
  | .error _ => []

/-! ### Settings loading (`getSettings`) -/

/-- A JSON scalar as far as `getSettings` discriminates values: a string, a
bool, a number (Python `int` or `float`, whose exact type never matters to
the validation), or anything else (`null`, arrays, objects). -/
inductive JValue where
  | jstr (s : String)
  | jbool (b : Bool)
  | jnum (q : ℚ)
  | jother
deriving DecidableEq, Repr

/-- Python `==` between JSON scalars: `True == 1`, `False == 0`, and no other
cross-type equalities among the values that can occur here. -/
def pyEq : JValue → JValue → Bool
  | .jstr a, .jstr b => a == b
  | .jbool a, .jbool b => a == b
  | .jnum a, .jnum b => a == b
  | .jbool a, .jnum b => (if a then (1 : ℚ) else 0) == b
  | .jnum a, .jbool b => a == (if b then (1 : ℚ) else 0)
  | _, _ => false

/-- Is the value a Python `float` or `int` (`type(x) in [type, float, int]`)?
Note `bool` is a distinct type, so `True`/`False` fail this test. -/
def JValue.isNum : JValue → Bool
  | .jnum _ => true
  | _ => false

/-- The values held in the global `settings` dict. -/
structure Settings where
  multiKeyMode : JValue
  forceBackground : JValue
  backgroundInversion : JValue
  loopDelay : JValue
  holdThreshold : JValue
  flushTimeout : JValue
deriving DecidableEq, Repr

/-- The built-in defaults of the `settings` dict. -/
def defaultSettings : Settings :=
  ⟨.jstr "combination", .jbool false, .jbool false,
   .jnum (mkRat 167 10000), .jnum 1, .jnum (mkRat 1 2)⟩

/-- `settingsFile[setting]`: a missing key is Python's uncaught `KeyError`. -/
def getSetting (file : List (String × JValue)) (key : String) : Except String JValue :=
  match file.lookup key with
  | some v => .ok v
  | none => .error ("KeyError: " ++ key)

/-- Validation of one enumerated setting: keep the file's value when it is a
member (under Python `==`) of the fixed domain, otherwise keep the default
and warn. -/
def validateEnum (key : String) (domain : List JValue) (dflt fileVal : JValue) :
    JValue × List String :=
  if domain.any (fun dv => pyEq fileVal dv) then (fileVal, [])
  else (dflt, ["Value for setting " ++ key ++ " is invalid, defaulting"])

/-- Validation of one type-checked setting (`[type, float, int]` domains):
keep the file's value when it is a number, otherwise keep the default and
warn. -/
def validateTyped (key : String) (dflt fileVal : JValue) : JValue × List String :=
  if fileVal.isNum then (fileVal, [])
  else (dflt, ["Value for setting " ++ key ++ " is of invalid type, defaulting"])

/-- `getSettings()`: iterate over the six settings in the insertion order of
the `settings` dict, read each from the settings document (raising `KeyError`
on the first missing one) and validate it independently against
`settingsPossible`, falling back to the default with a warning. -/
def getSettings (file : List (String × JValue)) :
    Except String (Settings × List String) := do
  let v1 ← getSetting file "multiKeyMode"
  let r1 := validateEnum "multiKeyMode" [.jstr "combination", .jstr "sequence"]
              defaultSettings.multiKeyMode v1
  let v2 ← getSetting file "forceBackground"
  let r2 := validateEnum "forceBackground" [.jbool true, .jbool false]
              defaultSettings.forceBackground v2
  let v3 ← getSetting file "backgroundInversion"
  let r3 := validateEnum "backgroundInversion" [.jbool true, .jbool false]
              defaultSettings.backgroundInversion v3
  let v4 ← getSetting file "loopDelay"
  let r4 := validateTyped "loopDelay" defaultSettings.loopDelay v4
  let v5 ← getSetting file "holdThreshold"
  let r5 := validateTyped "holdThreshold" defaultSettings.holdThreshold v5
  let v6 ← getSetting file "flushTimeout"
  let r6 := validateTyped "flushTimeout" defaultSettings.flushTimeout v6
  return (⟨r1.1, r2.1, r3.1, r4.1, r5.1, r6.1⟩,
          r1.2 ++ r2.2 ++ r3.2 ++ r4.2 ++ r5.2 ++ r6.2)

/-- Extract the loaded settings of a successful `getSettings` run. -/
def okSettings (r : Except String (Settings × List String)) : Settings :=
  match r with
  | .ok p => p.1
  | .error _ => defaultSettings

/-! ### Device registry reconciliation (`setupMacroDevices`) -/

/-- A device configuration document under `deviceDir`. -/
structure DevCfg where
  initial_layer : String
  event : String
deriving DecidableEq, Repr

/-- A tracked `macroDevice` as far as reconciliation observes it: its name
and the state that must be preserved for devices left untouched (current
layer and ledger histories). -/
structure MacroDev where
  name : String
  currentLayer : String
  histories : List String
deriving DecidableEq, Repr

/-- Python's `deviceJson.split(".json")[0]`: the part of the filename before
the first occurrence of `".json"`. -/
def beforeJsonExt : List Char → List Char
  | [] => []
  | c :: cs => if charsLead ".json".data (c :: cs) then [] else c :: beforeJsonExt cs

/-- `macroDevice.__init__` from a device configuration file: a fresh device
on the configured initial layer with a fresh (empty) ledger. -/
def mkMacroDev (fname : String) (cfg : DevCfg) : MacroDev :=
  ⟨⟨beforeJsonExt fname.data⟩, cfg.initial_layer, []⟩

/-- The semantics of `for device in macroDeviceList: if p(device):
macroDeviceList.remove(device)`: removing the element under the cursor makes
the Python list iterator skip (but keep) the element that follows it. -/
def pyRemoveLoop (p : α → Bool) : List α → List α
  | [] => []
  | [x] => if p x then [] else [x]
  | x :: y :: rest =>
      if p x then y :: pyRemoveLoop p rest
      else x :: pyRemoveLoop p (y :: rest)

/-- `setupMacroDevices()`: one reconciliation pass of the tracked device list
against the configuration files found in `deviceDir` (given with their parsed
contents).  First the removal loop over the tracked list, then one new
`macroDevice` per configuration file not already tracked, appended in file
order. -/
def setupMacroDevices (tracked : List MacroDev) (files : List (String × DevCfg)) :
    List MacroDev :=
  let names := files.map (fun f => f.1)
  let kept := pyRemoveLoop (fun d => !(names.contains (d.name ++ ".json"))) tracked
  let newDevs := (files.filter
      (fun f => !(kept.any (fun d => d.name ++ ".json" == f.1)))).map
    (fun f => mkMacroDev f.1 f.2)
  kept ++ newDevs

/-- Did an `Except` computation complete without raising? -/
def exceptOk {ε α : Type} (r : Except ε α) : Bool :=
  match r with
  | .ok _ => true
  | .error _ => false

/-! ### Concrete fixtures used by witnesses and counterexamples -/

/-- A layer binding chord `k` to a command with an unresolvable variable. -/
def c1layer : Layer := ⟨[("k", "%missing%")], some [], none⟩

/-- A device whose cached current layer is `c1layer`. -/
def c1dev : Device := ⟨"dev", "default.json", some c1layer, none⟩

/-- A complete settings document with an out-of-domain `forceBackground` and
a wrongly-typed `holdThreshold`. -/
def c2file : List (String × JValue) :=
  [("multiKeyMode", .jstr "sequence"), ("forceBackground", .jstr "yes"),
   ("backgroundInversion", .jbool true), ("loopDelay", .jnum 1),
   ("holdThreshold", .jbool true), ("flushTimeout", .jnum 2)]

/-- Tracked device `a`, whose configuration will vanish. -/
def regA : MacroDev := ⟨"a", "la.json", ["h1"]⟩

/-- Tracked device `b`, whose configuration will also vanish. -/
def regB : MacroDev := ⟨"b", "lb.json", ["h2"]⟩

/-- Tracked device `c`, whose configuration persists. -/
def regC : MacroDev := ⟨"c", "lc.json", []⟩

/-- Ledger settings: combination mode, `holdThreshold = 1`, `flushTimeout = 1`. -/
def c4cfg : LedgerCfg := ⟨"combination", 1, 1⟩

/-- Ledger settings: sequence mode, `holdThreshold = 1`, `flushTimeout = 1`. -/
def seqCfg : LedgerCfg := ⟨"sequence", 1, 1⟩

/-- A layer whose binding `k` switches to the layer `empty.json`. -/
def c8layer : Layer := ⟨[("k", "layer:empty")], none, some []⟩

/-- A device with no LED capability, on `default.json`. -/
def c8dev : Device := ⟨"dev", "default.json", none, none⟩

/-- Layer store: `default.json` is `c8layer` and `empty.json` exists but has
no `leds` property. -/
def c8fs : Fs := [("default.json", c8layer), ("empty.json", ⟨[], none, none⟩)]

/-- A layer whose binding `k` switches to `two.json`. -/
def c8wlayer : Layer := ⟨[("k", "layer:two")], none, some []⟩

/-- A device with LEDs 0, 1 and 2, on `default.json`. -/
def c8wdev : Device := ⟨"dev", "default.json", some c8wlayer, some [0, 1, 2]⟩

/-- Layer store for the layer-switch witness: the target `two.json` exists
with LED 1 enabled. -/
def c8wfs : Fs := [("default.json", c8wlayer), ("two.json", ⟨[], none, some [1]⟩)]

/-- The C10 invariant: every History in the ledger's flush queue is a
non-empty string. -/
def historiesNonEmpty (l : KeyLedger) : Prop := ∀ h ∈ l.histories, h ≠ ""

/-- A stale ledger (stale since t = 3) holding the completed history `"A"`. -/
def c5ledger : KeyLedger := ⟨3, 3, false, "A", [], [], [], [], []⟩

/-- `keyLe` as a relation, for the sortedness results about `sortKeys`. -/
def keyLeP (a b : String) : Prop := keyLe a b = true

/-- The ledger after pressing the keys `ks` (in that order, all events at
time 0) on a fresh ledger. -/
def pressedLedger (cfg : LedgerCfg) (ks : List String) : KeyLedger :=
  (KeyLedger.update cfg (keyLedgerInit 0) (ks.map (fun k => KeyEvent.down k 0))).1

/-- The canonical Chord string of the peak after pressing `ks`: what
`addHistoryEntry` would record on the falling edge. -/
def pressedChord (cfg : LedgerCfg) (ks : List String) : String :=
  (pressedLedger cfg ks).downKeysStr

/-!
## Theorems

One theorem (plus witness or counterexample where required) per claim
C1-C10, with shared helper lemmas.
-/

open KeyLedger

/-- C1: the claim says that for a command with a non-empty unresolved
variable name nothing is executed and no external process is spawned.
The code disagrees with its own `"skiping command"` diagnostic: `parseVars`
returns the `""` sentinel, but `processKeycode` never checks it and still
hands the (empty, post-normalization) string to `os.system`, spawning a
shell.  Evaluated at the failing input: layer binding `k = "%missing%"`,
no vars, both background settings off. -/
theorem unresolvedVar_still_invokes_shell :
    processKeycode ⟨false, false⟩ c1dev "k" [] =
      .ok (c1dev, [],
        [.print "unknown var missing in command %missing%, skiping command",
         .print "k: ", .print "Executing ", .execute ""]) := by
  rfl

/-- C2: the claim says `getSettings` never aborts, even on a document with
missing entries.  It does abort: the very first lookup of a missing key
raises `KeyError` (an empty document, e.g. the result of reading a malformed
settings file, is such an input). -/
theorem getSettings_aborts_on_missing_key :
    getSettings [] = .error "KeyError: multiKeyMode" := by
  rfl

/-- C2 (amended): for every settings document that binds all six setting
keys, `getSettings` completes without raising, and each setting is validated
independently against its fixed domain, the file's value being kept when
valid and the built-in default kept (with a warning) otherwise. -/
theorem getSettings_complete_doc_never_aborts
    (file : List (String × JValue)) (v1 v2 v3 v4 v5 v6 : JValue)
    (h1 : file.lookup "multiKeyMode" = some v1)
    (h2 : file.lookup "forceBackground" = some v2)
    (h3 : file.lookup "backgroundInversion" = some v3)
    (h4 : file.lookup "loopDelay" = some v4)
    (h5 : file.lookup "holdThreshold" = some v5)
    (h6 : file.lookup "flushTimeout" = some v6) :
    exceptOk (getSettings file) = true ∧
    okSettings (getSettings file) =
      ⟨if pyEq v1 (.jstr "combination") || pyEq v1 (.jstr "sequence") then v1
         else .jstr "combination",
       if pyEq v2 (.jbool true) || pyEq v2 (.jbool false) then v2 else .jbool false,
       if pyEq v3 (.jbool true) || pyEq v3 (.jbool false) then v3 else .jbool false,
       if v4.isNum then v4 else .jnum (mkRat 167 10000),
       if v5.isNum then v5 else .jnum 1,
       if v6.isNum then v6 else .jnum (mkRat 1 2)⟩ := by
  simp only [getSettings, getSetting, h1, h2, h3, h4, h5, h6, validateEnum,
    validateTyped, defaultSettings, List.any_cons, List.any_nil, Bool.or_false,
    bind, Except.bind, pure, Except.pure, exceptOk, okSettings]
  refine ⟨trivial, ?_⟩
  split_ifs <;> rfl

/-- C2 witness: on the concrete complete document `c2file` (with an invalid
`forceBackground` and a wrongly-typed `holdThreshold`) `getSettings`
completes without raising. -/
theorem getSettings_complete_doc_never_aborts_witness :
    exceptOk (getSettings c2file) = true :=
  (getSettings_complete_doc_never_aborts c2file _ _ _ _ _ _
    rfl rfl rfl rfl rfl rfl).1

/-- C3: the claim says one `setupMacroDevices` pass removes every tracked
device whose configuration vanished, even two consecutive ones.  The removal
loop deletes from `macroDeviceList` while iterating it, so after removing a
device the iterator skips the next one: with tracked devices `a`, `b`, `c`
and only `c.json` still configured, `b` survives the pass (and `c`, which
still exists, is untouched).  The code's own comments ("For all preexisting
devices ... Delete it") state the intent the claim describes. -/
theorem setup_skips_second_consecutive_vanished :
    setupMacroDevices [regA, regB, regC] [("c.json", ⟨"lc.json", "event3"⟩)] =
      [regB, regC] := by
  decide

/-- C6: the claim says an adjacent `%%` yields a single literal `%` in the
resolved output.  It does not: the scanner closes a variable reference with
an empty name and looks `""` up in the layer's vars; with no such binding
(the normal case) the whole action aborts to `""`.  At input `"a%%b"` with
empty vars the claim expects `"a%b"` but the code returns `""`. -/
theorem doubled_delimiter_not_literal :
    (parseVars "a%%b" ⟨[], some [], none⟩).1 = "" ∧
      ("" : String) ≠ "a%b" := by
  exact ⟨rfl, by decide⟩

/-- C6 (amended): an adjacent pair of delimiters is treated as a variable
reference with the empty name: the empty name is looked up in the layer's
vars, its value being substituted when bound, and the whole action aborting
to `""` when (as usual) it is unbound; the rest of the command resolves
normally. -/
theorem doubled_delimiter_is_empty_var_lookup (j : Layer) :
    (parseVars "a%%b" j).1 =
      (match varsLookup j "" with
       | some v => "a" ++ v ++ "b"
       | none => "") := by
  show (parseVarsGo "a%%b" j ['a', '%', '%', 'b'] false false [] []).1 = _
  simp only [parseVarsGo]
  norm_num
  cases h : varsLookup j "" with
  | none => simp [h, parseVarsGo]
  | some v =>
    obtain ⟨vd⟩ := v
    simp [h, parseVarsGo]
    rfl



/-! #### Plumbing lemmas about the ledger step functions -/

theorem noteEvent_tick (l : KeyLedger) (t : ℚ) : noteEvent l (.tick t) = l := rfl

theorem noteEvent_down_new (l : KeyLedger) (k : String) (t : ℚ) (h : k ∉ l.downKeys) :
    noteEvent l (.down k t) = { l with newKeys := [k] } := by
  dsimp only [noteEvent]; rw [if_neg h]

theorem noteEvent_up_lost (l : KeyLedger) (k : String) (t : ℚ) (h : k ∈ l.downKeys) :
    noteEvent l (.up k t) = { l with lostKeys := [k] } := by
  dsimp only [noteEvent]; rw [if_pos h]

theorem noteEvent_up_untracked (l : KeyLedger) (k : String) (t : ℚ) (h : k ∉ l.downKeys) :
    noteEvent l (.up k t)
      = { l with warnings := l.warnings ++ ["Untracked key " ++ k ++ " released."] } := by
  dsimp only [noteEvent]; rw [if_neg h]

theorem decideState_rise (cfg : LedgerCfg) (l : KeyLedger) (t : ℚ) (h : l.newKeys ≠ []) :
    decideState cfg l t = (riseStep cfg l t, false) := by
  unfold decideState; rw [if_pos h]

theorem decideState_fall (cfg : LedgerCfg) (l : KeyLedger) (t : ℚ)
    (h1 : l.newKeys = []) (h2 : l.lostKeys ≠ []) :
    decideState cfg l t = (fallStep cfg l t, false) := by
  unfold decideState; rw [if_neg (by simp [h1]), if_pos h2]

theorem decideState_hold (cfg : LedgerCfg) (l : KeyLedger) (t : ℚ)
    (h1 : l.newKeys = []) (h2 : l.lostKeys = []) (h3 : l.downKeys ≠ []) :
    decideState cfg l t = (stateChange l 2 t, false) := by
  unfold decideState; rw [if_neg (by simp [h1]), if_neg (by simp [h2]), if_pos h3]

theorem decideState_stale (cfg : LedgerCfg) (l : KeyLedger) (t : ℚ)
    (h1 : l.newKeys = []) (h2 : l.lostKeys = []) (h3 : l.downKeys = []) :
    decideState cfg l t = staleStep cfg l t := by
  unfold decideState; rw [if_neg (by simp [h1]), if_neg (by simp [h2]), if_neg (by simp [h3])]

theorem updateOne_eq (cfg : LedgerCfg) (l : KeyLedger) (ev : KeyEvent) :
    updateOne cfg l ev
      = decideState cfg
          (noteEvent { l with newKeys := ([] : List String), lostKeys := ([] : List String) } ev)
          ev.time := rfl

theorem noteEvent_preserves (l : KeyLedger) (ev : KeyEvent) :
    (noteEvent l ev).history = l.history ∧
    (noteEvent l ev).histories = l.histories ∧
    (noteEvent l ev).downKeys = l.downKeys ∧
    (noteEvent l ev).peaking = l.peaking ∧
    (noteEvent l ev).state = l.state ∧
    (noteEvent l ev).stateChangeStamp = l.stateChangeStamp := by
  cases ev with
  | down k t => dsimp only [noteEvent]; split_ifs <;> exact ⟨rfl, rfl, rfl, rfl, rfl, rfl⟩
  | up k t => dsimp only [noteEvent]; split_ifs <;> exact ⟨rfl, rfl, rfl, rfl, rfl, rfl⟩
  | tick t => exact ⟨rfl, rfl, rfl, rfl, rfl, rfl⟩

theorem stateChange_preserves (l : KeyLedger) (n : Nat) (t : ℚ) :
    (stateChange l n t).history = l.history ∧
    (stateChange l n t).histories = l.histories ∧
    (stateChange l n t).downKeys = l.downKeys ∧
    (stateChange l n t).peaking = l.peaking ∧
    (stateChange l n t).newKeys = l.newKeys ∧
    (stateChange l n t).lostKeys = l.lostKeys ∧
    (stateChange l n t).warnings = l.warnings := by
  unfold stateChange; split_ifs <;> exact ⟨rfl, rfl, rfl, rfl, rfl, rfl, rfl⟩

theorem stateChange_state (l : KeyLedger) (n : Nat) (t : ℚ) :
    (stateChange l n t).state = n := by
  unfold stateChange; split_ifs with h
  · exact h
  · rfl

theorem riseStep_histories (cfg : LedgerCfg) (l : KeyLedger) (t : ℚ) :
    (riseStep cfg l t).histories = l.histories ∧ (riseStep cfg l t).history = l.history := by
  unfold riseStep stateChange; dsimp only; split_ifs <;> exact ⟨rfl, rfl⟩

theorem fallStep_histories (cfg : LedgerCfg) (l : KeyLedger) (t : ℚ) :
    (fallStep cfg l t).histories = l.histories := by
  unfold fallStep addHistoryEntry stateChange; dsimp only; split_ifs <;> rfl

theorem staleStep_flush (cfg : LedgerCfg) (l : KeyLedger) (t : ℚ)
    (h : (staleStep cfg l t).2 = true) :
    (staleStep cfg l t).1.state = 3 ∧ l.history ≠ "" ∧
    t - (staleStep cfg l t).1.stateChangeStamp > cfg.flushTimeout ∧
    (staleStep cfg l t).1.history = "" ∧
    (staleStep cfg l t).1.histories = l.histories ++ [l.history] := by
  have hsp := stateChange_preserves l 3 t
  have hst := stateChange_state l 3 t
  unfold staleStep at h ⊢
  dsimp only at h ⊢
  split_ifs at h ⊢ with hc
  · unfold stateDuration at hc
    unfold flushHistory
    refine ⟨hst, ?_, hc.1, rfl, by rw [hsp.1, hsp.2.1]⟩
    rw [hsp.1] at hc
    exact hc.2

theorem staleStep_of_empty (cfg : LedgerCfg) (l : KeyLedger) (t : ℚ)
    (h : l.history = "") :
    (staleStep cfg l t).1.histories = l.histories ∧ (staleStep cfg l t).2 = false ∧
    (staleStep cfg l t).1.history = "" := by
  have hsp := stateChange_preserves l 3 t
  unfold staleStep
  dsimp only
  rw [if_neg (by rw [hsp.1]; simp [h])]
  exact ⟨hsp.2.1, rfl, hsp.1.trans h⟩

theorem updateOne_of_empty_history (cfg : LedgerCfg) (l : KeyLedger) (ev : KeyEvent)
    (h : l.history = "") :
    (updateOne cfg l ev).1.histories = l.histories ∧
    (updateOne cfg l ev).2 = false := by
  rw [updateOne_eq]
  set l2 := noteEvent { l with newKeys := ([] : List String), lostKeys := ([] : List String) } ev with hl2
  have hp := noteEvent_preserves { l with newKeys := ([] : List String), lostKeys := ([] : List String) } ev
  rw [← hl2] at hp
  unfold decideState
  split_ifs with h1 h2 h3
  · exact ⟨(riseStep_histories cfg l2 ev.time).1.trans hp.2.1, rfl⟩
  · exact ⟨(fallStep_histories cfg l2 ev.time).trans hp.2.1, rfl⟩
  · exact ⟨(stateChange_preserves l2 2 ev.time).2.1.trans hp.2.1, rfl⟩
  · have he : l2.history = "" := hp.1.trans h
    have hs := staleStep_of_empty cfg l2 ev.time he
    exact ⟨hs.1.trans hp.2.1, hs.2.1⟩

theorem updateOne_empty_history_kept (cfg : LedgerCfg) (l : KeyLedger) (ev : KeyEvent)
    (h : l.history = "") (hnofall : (noteEvent { l with newKeys := ([] : List String), lostKeys := ([] : List String) } ev).lostKeys = []) :
    (updateOne cfg l ev).1.history = "" := by
  rw [updateOne_eq]
  set l2 := noteEvent { l with newKeys := ([] : List String), lostKeys := ([] : List String) } ev with hl2
  have hp := noteEvent_preserves { l with newKeys := ([] : List String), lostKeys := ([] : List String) } ev
  rw [← hl2] at hp
  have he : l2.history = "" := hp.1.trans h
  unfold decideState
  split_ifs with h1 h2 h3
  · exact (riseStep_histories cfg l2 ev.time).2.trans he
  · exact absurd hnofall h2
  · exact (stateChange_preserves l2 2 ev.time).1.trans he
  · exact (staleStep_of_empty cfg l2 ev.time he).2.2

theorem updateOne_tick_empty_history (cfg : LedgerCfg) (l : KeyLedger) (t : ℚ)
    (h : l.history = "") :
    (updateOne cfg l (.tick t)).1.history = "" :=
  updateOne_empty_history_kept cfg l (.tick t) h rfl

/-- C5: a History moves from the in-progress buffer into the flush queue
only in a step that lands in the Stale state, with a non-empty buffer, and
with the stale duration at the event time strictly above `flushTimeout`; and
flushing is idempotent: a flush empties the buffer, and any step (in
particular every further stale poll) from an empty buffer never enqueues and
never reports a flush. -/
theorem flush_conditions_and_idempotence (cfg : LedgerCfg) (l : KeyLedger) (ev : KeyEvent) :
    ((KeyLedger.updateOne cfg l ev).2 = true →
      (KeyLedger.updateOne cfg l ev).1.state = 3 ∧
      l.history ≠ "" ∧
      ev.time - (KeyLedger.updateOne cfg l ev).1.stateChangeStamp > cfg.flushTimeout ∧
      (KeyLedger.updateOne cfg l ev).1.history = "" ∧
      (KeyLedger.updateOne cfg l ev).1.histories = l.histories ++ [l.history]) ∧
    (l.history = "" →
      (KeyLedger.updateOne cfg l ev).1.histories = l.histories ∧
      (KeyLedger.updateOne cfg l ev).2 = false) ∧
    (∀ ts : List ℚ, l.history = "" →
      (KeyLedger.update cfg l (ts.map .tick)).1.histories = l.histories) := by
  refine ⟨?_, fun h => updateOne_of_empty_history cfg l ev h, ?_⟩
  · intro hf
    have hp := noteEvent_preserves { l with newKeys := ([] : List String), lostKeys := ([] : List String) } ev
    have hstale : updateOne cfg l ev =
        staleStep cfg (noteEvent { l with newKeys := ([] : List String), lostKeys := ([] : List String) } ev) ev.time := by
      rw [updateOne_eq] at hf ⊢
      unfold decideState at hf ⊢
      split_ifs at hf ⊢ <;> simp_all
    rw [hstale] at hf ⊢
    have hres := staleStep_flush cfg _ ev.time hf
    rw [hp.1, hp.2.1] at hres
    exact hres
  · intro ts h
    suffices hgen : ∀ (ts : List ℚ) (p : KeyLedger × Bool), p.1.history = "" →
        ((ts.map KeyEvent.tick).foldl (updateStep cfg) p).1.histories = p.1.histories by
      exact hgen ts (l, false) h
    intro ts
    induction ts with
    | nil => intro p hp; rfl
    | cons t rest ih =>
      intro p hp
      simp only [List.map_cons, List.foldl_cons]
      rw [ih (updateStep cfg p (.tick t)) (updateOne_tick_empty_history cfg p.1 t hp)]
      exact (updateOne_of_empty_history cfg p.1 (.tick t) hp).1



theorem staleStep_preserves_keys (cfg : LedgerCfg) (l : KeyLedger) (t : ℚ) :
    (staleStep cfg l t).1.downKeys = l.downKeys ∧
    (staleStep cfg l t).1.lostKeys = l.lostKeys ∧
    (staleStep cfg l t).1.warnings = l.warnings := by
  have hsp := stateChange_preserves l 3 t
  unfold staleStep flushHistory
  dsimp only
  split_ifs
  · exact ⟨hsp.2.2.1, hsp.2.2.2.2.2.1, hsp.2.2.2.2.2.2⟩
  · exact ⟨hsp.2.2.1, hsp.2.2.2.2.2.1, hsp.2.2.2.2.2.2⟩

theorem decideState_no_edge_fields (cfg : LedgerCfg) (l : KeyLedger) (t : ℚ)
    (h1 : l.newKeys = []) (h2 : l.lostKeys = []) :
    (decideState cfg l t).1.downKeys = l.downKeys ∧
    (decideState cfg l t).1.lostKeys = l.lostKeys ∧
    (decideState cfg l t).1.warnings = l.warnings := by
  unfold decideState
  rw [if_neg (by simp [h1]), if_neg (by simp [h2])]
  split_ifs with h3
  · exact ⟨(stateChange_preserves l 2 t).2.2.1,
      (stateChange_preserves l 2 t).2.2.2.2.2.1, (stateChange_preserves l 2 t).2.2.2.2.2.2⟩
  · exact staleStep_preserves_keys cfg l t

/-- C9: a key-up event for a keycode not in `downKeys` leaves `downKeys`
unchanged, adds nothing to `lostKeys`, and appends exactly the warning line
the code prints; the update step completes normally (the embedding is a
total function and the branch only prints). -/
theorem untracked_release_is_safe (cfg : LedgerCfg) (l : KeyLedger) (k : String) (t : ℚ)
    (h : k ∉ l.downKeys) :
    (KeyLedger.updateOne cfg l (.up k t)).1.downKeys = l.downKeys ∧
    (KeyLedger.updateOne cfg l (.up k t)).1.lostKeys = [] ∧
    (KeyLedger.updateOne cfg l (.up k t)).1.warnings
      = l.warnings ++ ["Untracked key " ++ k ++ " released."] := by
  rw [updateOne_eq]
  rw [noteEvent_up_untracked
    { l with newKeys := ([] : List String), lostKeys := ([] : List String) } k t h]
  exact ⟨(decideState_no_edge_fields cfg _ _ rfl rfl).1,
    (decideState_no_edge_fields cfg _ _ rfl rfl).2.1,
    (decideState_no_edge_fields cfg _ _ rfl rfl).2.2⟩

/-- C9 witness: releasing `KEY_X` on a fresh ledger (nothing down). -/
theorem untracked_release_is_safe_witness :
    (KeyLedger.updateOne c4cfg (keyLedgerInit 0) (.up "KEY_X" 1)).1.downKeys
        = (keyLedgerInit 0).downKeys ∧
    (KeyLedger.updateOne c4cfg (keyLedgerInit 0) (.up "KEY_X" 1)).1.lostKeys = [] ∧
    (KeyLedger.updateOne c4cfg (keyLedgerInit 0) (.up "KEY_X" 1)).1.warnings
        = (keyLedgerInit 0).warnings ++ ["Untracked key " ++ "KEY_X" ++ " released."] :=
  untracked_release_is_safe c4cfg (keyLedgerInit 0) "KEY_X" 1 (by decide)

theorem updateOne_histories_nonempty (cfg : LedgerCfg) (l : KeyLedger) (ev : KeyEvent)
    (h : historiesNonEmpty l) :
    historiesNonEmpty (KeyLedger.updateOne cfg l ev).1 := by
  rw [updateOne_eq]
  set l2 := noteEvent { l with newKeys := ([] : List String), lostKeys := ([] : List String) } ev with hl2
  have hp := noteEvent_preserves { l with newKeys := ([] : List String), lostKeys := ([] : List String) } ev
  rw [← hl2] at hp
  have hinv2 : historiesNonEmpty l2 := by
    unfold historiesNonEmpty; rw [hp.2.1]; exact h
  unfold decideState
  split_ifs with h1 h2 h3
  · unfold historiesNonEmpty; rw [(riseStep_histories cfg l2 ev.time).1]; exact hinv2
  · unfold historiesNonEmpty; rw [fallStep_histories cfg l2 ev.time]; exact hinv2
  · unfold historiesNonEmpty; rw [(stateChange_preserves l2 2 ev.time).2.1]; exact hinv2
  · have hsp := stateChange_preserves l2 3 ev.time
    unfold staleStep
    dsimp only
    split_ifs with hc
    · unfold flushHistory historiesNonEmpty
      intro x hx
      dsimp only at hx
      rw [hsp.2.1, hsp.1] at hx
      rcases List.mem_append.mp hx with hx1 | hx2
      · exact hinv2 x hx1
      · rw [List.mem_singleton] at hx2
        rw [hsp.1] at hc
        exact hx2 ▸ hc.2
    · unfold historiesNonEmpty; rw [hsp.2.1]; exact hinv2

/-- C10: every History in the flush queue is a non-empty string -- the
invariant holds for a fresh ledger and is preserved by every update batch,
because flushing requires a non-empty buffer -- and under it `popHistory`
returns the empty string iff the queue is empty, so the empty-string
sentinel never collides with a flushed History. -/
theorem flushed_histories_nonempty :
    (∀ t : ℚ, historiesNonEmpty (keyLedgerInit t)) ∧
    (∀ (cfg : LedgerCfg) (l : KeyLedger) (evs : List KeyEvent),
        historiesNonEmpty l → historiesNonEmpty (KeyLedger.update cfg l evs).1) ∧
    (∀ l : KeyLedger, historiesNonEmpty l →
        ((KeyLedger.popHistory l).1 = "" ↔ l.histories = [])) := by
  refine ⟨?_, ?_, ?_⟩
  · intro t h hmem
    cases hmem
  · intro cfg l evs
    suffices hgen : ∀ (evs : List KeyEvent) (p : KeyLedger × Bool), historiesNonEmpty p.1 →
        historiesNonEmpty ((evs.foldl (updateStep cfg) p)).1 by
      exact fun h => hgen evs (l, false) h
    intro evs
    induction evs with
    | nil => exact fun p hp => hp
    | cons ev rest ih =>
      intro p hp
      simp only [List.foldl_cons]
      exact ih (updateStep cfg p ev) (updateOne_histories_nonempty cfg p.1 ev hp)
  · intro l h
    unfold popHistory
    cases hh : l.histories with
    | nil => simp
    | cons a rest =>
      dsimp only
      constructor
      · intro ha
        exact absurd ha (h a (by rw [hh]; exact List.mem_cons_self a rest))
      · intro hcontra
        cases hcontra

/-- C10 witness: the invariant after a concrete press/release/flush run, and
the sentinel property on the fresh ledger. -/
theorem flushed_histories_nonempty_witness :
    historiesNonEmpty (KeyLedger.update c4cfg (keyLedgerInit 0)
      [.down "A" 0, .up "A" 1, .tick 3, .tick 5]).1 ∧
    ((KeyLedger.popHistory (keyLedgerInit 0)).1 = "" ↔ (keyLedgerInit 0).histories = []) := by
  constructor
  · exact flushed_histories_nonempty.2.1 c4cfg (keyLedgerInit 0)
      [.down "A" 0, .up "A" 1, .tick 3, .tick 5] (flushed_histories_nonempty.1 0)
  · exact flushed_histories_nonempty.2.2 (keyLedgerInit 0) (flushed_histories_nonempty.1 0)

/-- C5 witness: a stale tick at t=5 on `c5ledger` (stale since t=3, buffer
`"A"`, flushTimeout 1) flushes, with all the stated conditions holding. -/
theorem flush_conditions_and_idempotence_witness :
    (KeyLedger.updateOne c4cfg c5ledger (.tick 5)).1.state = 3 ∧
    c5ledger.history ≠ "" ∧
    (KeyEvent.tick 5).time -
      (KeyLedger.updateOne c4cfg c5ledger (.tick 5)).1.stateChangeStamp > c4cfg.flushTimeout ∧
    (KeyLedger.updateOne c4cfg c5ledger (.tick 5)).1.history = "" ∧
    (KeyLedger.updateOne c4cfg c5ledger (.tick 5)).1.histories
      = c5ledger.histories ++ [c5ledger.history] :=
  (flush_conditions_and_idempotence c4cfg c5ledger (.tick 5)).1
    (by with_unfolding_all rfl)



/-- C4: the claim says `held` is true iff the time from the ledger's entry
into Rising to its entry into Falling exceeds `holdThreshold`, regardless of
intermediate Holding polls.  It is not: an intermediate poll moves the ledger
into state 2 and restamps it, and `addHistoryEntry` measures from that last
state change.  Concretely (holdThreshold = 1): key down at t=0, one poll at
t=1, release at t=2.  Rising-to-falling is 2 > 1, so the claim demands
`KEY_A+HELD`, but the code measures 2-1 = 1, not > 1, and records `KEY_A`. -/
theorem held_ignores_rising_entry :
    (KeyLedger.update c4cfg (keyLedgerInit 0)
      [.down "KEY_A" 0, .tick 1, .up "KEY_A" 2]).1.history = "KEY_A" ∧
    ((2 : ℚ) - 0 > c4cfg.holdThreshold) ∧
    ("KEY_A" : String) ≠ "KEY_A+HELD" :=
  ⟨by with_unfolding_all rfl, of_decide_eq_true (by with_unfolding_all rfl), by decide⟩

theorem resetEdges_eq_self (l : KeyLedger) (hn : l.newKeys = []) (hl : l.lostKeys = []) :
    ({ l with newKeys := ([] : List String), lostKeys := ([] : List String) } : KeyLedger) = l := by
  cases l
  simp_all

theorem downFromInit (cfg : LedgerCfg) (tI t0 : ℚ) (k : String) :
    updateOne cfg (keyLedgerInit tI) (.down k t0)
      = (⟨0, t0, true, "", [], [k], [], [k], []⟩, false) := by
  rw [updateOne_eq]
  rw [noteEvent_down_new
    { keyLedgerInit tI with newKeys := ([] : List String), lostKeys := ([] : List String) }
    k t0 (by simp [keyLedgerInit])]
  rw [decideState_rise cfg _ _ (by simp)]
  unfold riseStep
  dsimp only [keyLedgerInit]
  simp only [List.nil_append]
  have hsk : sortKeys [k] = [k] := rfl
  rw [hsk, ite_self]
  unfold stateChange
  rw [if_neg (by simp)]
  rfl

theorem tick_hold_eq (cfg : LedgerCfg) (l : KeyLedger) (s : ℚ)
    (hd : l.downKeys ≠ []) (hs : ¬ l.state = 2) :
    updateOne cfg l (.tick s)
      = ({ l with
            newKeys := ([] : List String)
            lostKeys := ([] : List String)
            state := 2
            stateChangeStamp := s }, false) := by
  rw [updateOne_eq, noteEvent_tick]
  rw [decideState_hold cfg
    { l with newKeys := ([] : List String), lostKeys := ([] : List String) }
    (KeyEvent.tick s).time rfl rfl hd]
  unfold stateChange
  split_ifs with h2c
  · exact absurd h2c hs
  · rfl

theorem tick_hold_idem (cfg : LedgerCfg) (l : KeyLedger) (s : ℚ)
    (hd : l.downKeys ≠ []) (h2 : l.state = 2) (hn : l.newKeys = []) (hl : l.lostKeys = []) :
    updateOne cfg l (.tick s) = (l, false) := by
  rw [updateOne_eq, noteEvent_tick]
  rw [resetEdges_eq_self l hn hl]
  rw [decideState_hold cfg _ _ hn hl hd]
  unfold stateChange
  rw [if_pos h2]

theorem ticks_fold_idem (cfg : LedgerCfg) (rest : List ℚ) (p : KeyLedger × Bool)
    (h2 : p.1.state = 2) (hn : p.1.newKeys = []) (hl : p.1.lostKeys = [])
    (hd : p.1.downKeys ≠ []) :
    (rest.map KeyEvent.tick).foldl (updateStep cfg) p = p := by
  induction rest with
  | nil => rfl
  | cons s r ih =>
    simp only [List.map_cons, List.foldl_cons]
    have hstep : updateStep cfg p (.tick s) = p := by
      unfold updateStep
      rw [tick_hold_idem cfg p.1 s hd h2 hn hl]
      simp
    rw [hstep]
    exact ih

theorem fallStep_history_of_peaking (cfg : LedgerCfg) (l : KeyLedger) (t : ℚ)
    (hp : l.peaking = true) :
    (fallStep cfg l t).history = (addHistoryEntry cfg l t).history := by
  unfold fallStep
  dsimp only
  rw [if_pos hp]
  exact (stateChange_preserves _ 1 t).1

theorem addHistoryEntry_of_empty (cfg : LedgerCfg) (l : KeyLedger) (t : ℚ)
    (he : l.history = "") :
    (addHistoryEntry cfg l t).history
      = (if l.stateDuration t > cfg.holdThreshold
         then l.downKeysStr ++ "+HELD" else l.downKeysStr) := by
  unfold addHistoryEntry
  dsimp only
  rw [if_neg (by simp [he])]

theorem up_single_history (cfg : LedgerCfg) (k : String) (t1 : ℚ) (st : Nat)
    (stamp : ℚ) (nk : List String) :
    (updateOne cfg ⟨st, stamp, true, "", [], nk, [], [k], []⟩ (.up k t1)).1.history
      = (if t1 - stamp > cfg.holdThreshold
         then plusJoin [k] ++ "+HELD" else plusJoin [k]) := by
  rw [updateOne_eq]
  rw [noteEvent_up_lost
    { (⟨st, stamp, true, "", [], nk, [], [k], []⟩ : KeyLedger) with
        newKeys := ([] : List String), lostKeys := ([] : List String) }
    k t1 (by simp)]
  rw [decideState_fall cfg _ _ rfl (by simp)]
  dsimp only
  rw [fallStep_history_of_peaking cfg _ _ rfl]
  rw [addHistoryEntry_of_empty cfg _ _ rfl]
  rfl

/-- C4 (amended): for a single key pressed at `t0`, polled while held at the
times `ts`, and released at `t1`, the recorded Chord carries `+HELD` iff the
duration between the ledger's last state change before the falling edge --
the first intermediate Holding poll when there is one, the Rising entry
otherwise -- and the falling edge exceeds `holdThreshold`.  With no
intermediate polls this coincides with the claim's rising-to-falling
duration. -/
theorem held_measured_from_last_state_change (cfg : LedgerCfg) (tI t0 t1 : ℚ)
    (k : String) (ts : List ℚ) :
    (KeyLedger.update cfg (keyLedgerInit tI)
        ([KeyEvent.down k t0] ++ ts.map KeyEvent.tick ++ [KeyEvent.up k t1])).1.history
      = (if t1 - (match ts with | [] => t0 | s :: _ => s) > cfg.holdThreshold
         then plusJoin [k] ++ "+HELD" else plusJoin [k]) := by
  unfold KeyLedger.update
  rw [List.foldl_append, List.foldl_append]
  simp only [List.foldl_cons, List.foldl_nil]
  have hA : updateStep cfg (keyLedgerInit tI, false) (.down k t0)
      = ((⟨0, t0, true, "", [], [k], [], [k], []⟩ : KeyLedger), false) := by
    unfold updateStep
    rw [downFromInit cfg tI t0 k]
    rfl
  rw [hA]
  cases ts with
  | nil =>
    simp only [List.map_nil, List.foldl_nil, updateStep]
    dsimp only
    rw [up_single_history cfg k t1 0 t0 [k]]
  | cons s rest =>
    simp only [List.map_cons, List.foldl_cons]
    have hB : updateStep cfg ((⟨0, t0, true, "", [], [k], [], [k], []⟩ : KeyLedger), false) (.tick s)
        = ((⟨2, s, true, "", [], [], [], [k], []⟩ : KeyLedger), false) := by
      unfold updateStep
      rw [tick_hold_eq cfg _ s (by simp) (by simp)]
      rfl
    rw [hB]
    rw [ticks_fold_idem cfg rest _ rfl rfl rfl (by simp)]
    simp only [updateStep]
    dsimp only
    rw [up_single_history cfg k t1 2 s []]



theorem charsLe_total : ∀ as bs : List Char, charsLe as bs = true ∨ charsLe bs as = true := by
  intro as
  induction as with
  | nil => intro bs; left; rfl
  | cons a as ih =>
    intro bs
    cases bs with
    | nil => right; rfl
    | cons b bs =>
      by_cases h1 : a.toNat < b.toNat
      · left; simp [charsLe, h1]
      · by_cases h2 : b.toNat < a.toNat
        · right; simp [charsLe, h2]
        · rcases ih bs with h | h
          · left; simp [charsLe, h1, h2, h]
          · right; simp [charsLe, h1, h2, h]

theorem charsLe_antisymm : ∀ as bs : List Char,
    charsLe as bs = true → charsLe bs as = true → as = bs := by
  intro as
  induction as with
  | nil =>
    intro bs h1 h2
    cases bs with
    | nil => rfl
    | cons b bs => simp [charsLe] at h2
  | cons a as ih =>
    intro bs h1 h2
    cases bs with
    | nil => simp [charsLe] at h1
    | cons b bs =>
      by_cases hab : a.toNat < b.toNat
      · simp [charsLe, hab, Nat.lt_asymm hab] at h2
      · by_cases hba : b.toNat < a.toNat
        · simp [charsLe, hab, hba] at h1
        · have hnat : a.toNat = b.toNat := by omega
          have hc : a = b := Char.ext (by
            have : a.val.toNat = b.val.toNat := hnat
            exact UInt32.ext this)
          subst hc
          simp [charsLe, hab, hba] at h1 h2
          rw [ih bs h1 h2]

theorem charsLe_trans : ∀ as bs cs : List Char,
    charsLe as bs = true → charsLe bs cs = true → charsLe as cs = true := by
  intro as
  induction as with
  | nil => intro bs cs h1 h2; rfl
  | cons a as ih =>
    intro bs cs h1 h2
    cases bs with
    | nil => simp [charsLe] at h1
    | cons b bs =>
      cases cs with
      | nil => simp [charsLe] at h2
      | cons c cs =>
        by_cases hab : a.toNat < b.toNat
        · by_cases hbc : b.toNat < c.toNat
          · simp [charsLe, show a.toNat < c.toNat by omega]
          · by_cases hcb : c.toNat < b.toNat
            · simp [charsLe, hbc, hcb] at h2
            · simp [charsLe, show a.toNat < c.toNat by omega]
        · by_cases hba : b.toNat < a.toNat
          · simp [charsLe, hab, hba] at h1
          · by_cases hbc : b.toNat < c.toNat
            · simp [charsLe, show a.toNat < c.toNat by omega]
            · by_cases hcb : c.toNat < b.toNat
              · simp [charsLe, hbc, hcb] at h2
              · simp [charsLe, hab, hba] at h1
                simp [charsLe, hbc, hcb] at h2
                simp [charsLe, show ¬a.toNat < c.toNat by omega,
                      show ¬c.toNat < a.toNat by omega]
                exact ih bs cs h1 h2

theorem keyLe_antisymm (a b : String) : keyLe a b = true → keyLe b a = true → a = b := by
  intro h1 h2
  have h := charsLe_antisymm a.data b.data h1 h2
  cases a
  cases b
  exact congrArg String.mk h

instance : IsAntisymm String keyLeP := ⟨keyLe_antisymm⟩

instance : IsTrans String keyLeP :=
  ⟨fun a b c h1 h2 => charsLe_trans a.data b.data c.data h1 h2⟩

theorem mem_insertKey (a k : String) : ∀ l : List String,
    a ∈ insertKey k l ↔ a = k ∨ a ∈ l := by
  intro l
  induction l with
  | nil => simp [insertKey]
  | cons x xs ih =>
    unfold insertKey
    split_ifs with hkx
    · constructor
      · intro h
        rcases List.mem_cons.mp h with h | h
        · exact Or.inl h
        · exact Or.inr h
      · intro h
        rcases h with h | h
        · exact List.mem_cons.mpr (Or.inl h)
        · exact List.mem_cons.mpr (Or.inr h)
    · simp only [List.mem_cons, ih]
      tauto

theorem insertKey_perm (k : String) : ∀ l : List String, List.Perm (insertKey k l) (k :: l) := by
  intro l
  induction l with
  | nil => exact List.Perm.refl _
  | cons x xs ih =>
    unfold insertKey
    split_ifs with hkx
    · exact List.Perm.refl _
    · exact (List.Perm.cons x ih).trans (List.Perm.swap k x xs)

theorem sortKeys_perm : ∀ l : List String, List.Perm (sortKeys l) l := by
  intro l
  induction l with
  | nil => exact List.Perm.refl _
  | cons x xs ih =>
    exact (insertKey_perm x (sortKeys xs)).trans (List.Perm.cons x ih)

theorem insertKey_sorted (k : String) : ∀ l : List String,
    l.Pairwise keyLeP → (insertKey k l).Pairwise keyLeP := by
  intro l
  induction l with
  | nil => intro _; simp [insertKey, keyLeP]
  | cons x xs ih =>
    intro hs
    unfold insertKey
    split_ifs with hkx
    · refine List.Pairwise.cons ?_ hs
      intro y hy
      rcases List.mem_cons.mp hy with rfl | hy'
      · exact hkx
      · exact charsLe_trans k.data x.data y.data hkx ((List.pairwise_cons.mp hs).1 y hy')
    · have hxk : keyLe x k = true :=
        (charsLe_total k.data x.data).resolve_left hkx
      rcases List.pairwise_cons.mp hs with ⟨hx, hxs⟩
      refine List.pairwise_cons.mpr ⟨?_, ih hxs⟩
      intro y hy
      rcases (mem_insertKey y k xs).mp hy with rfl | hy'
      · exact hxk
      · exact hx y hy'

theorem sortKeys_sorted : ∀ l : List String, (sortKeys l).Pairwise keyLeP := by
  intro l
  induction l with
  | nil => simp [sortKeys]
  | cons x xs ih => exact insertKey_sorted x (sortKeys xs) ih



theorem down_new_downKeys_comb (cfg : LedgerCfg) (l : KeyLedger) (k : String) (t : ℚ)
    (h : k ∉ l.downKeys) (hmode : cfg.multiKeyMode = "combination") :
    (updateOne cfg l (.down k t)).1.downKeys = sortKeys (l.downKeys ++ [k]) := by
  rw [updateOne_eq,
    noteEvent_down_new
      { l with newKeys := ([] : List String), lostKeys := ([] : List String) } k t h]
  rw [decideState_rise cfg _ _ (by simp)]
  unfold riseStep
  dsimp only
  rw [if_pos hmode]
  exact (stateChange_preserves _ 0 (KeyEvent.down k t).time).2.2.1

theorem down_new_downKeys_seq (cfg : LedgerCfg) (l : KeyLedger) (k : String) (t : ℚ)
    (h : k ∉ l.downKeys) (hmode : cfg.multiKeyMode = "sequence") :
    (updateOne cfg l (.down k t)).1.downKeys = l.downKeys ++ [k] := by
  rw [updateOne_eq,
    noteEvent_down_new
      { l with newKeys := ([] : List String), lostKeys := ([] : List String) } k t h]
  rw [decideState_rise cfg _ _ (by simp)]
  unfold riseStep
  dsimp only
  rw [if_neg (by simp [hmode])]
  exact (stateChange_preserves _ 0 (KeyEvent.down k t).time).2.2.1

theorem comb_press_invariant (cfg : LedgerCfg) (hmode : cfg.multiKeyMode = "combination") :
    ∀ (ks : List String) (p : KeyLedger × Bool), ks.Nodup →
      (∀ k ∈ ks, k ∉ p.1.downKeys) → p.1.downKeys.Pairwise keyLeP →
      List.Perm ((ks.map (fun k => KeyEvent.down k 0)).foldl (updateStep cfg) p).1.downKeys
        (p.1.downKeys ++ ks) ∧
      ((ks.map (fun k => KeyEvent.down k 0)).foldl (updateStep cfg) p).1.downKeys.Pairwise keyLeP := by
  intro ks
  induction ks with
  | nil =>
    intro p _ _ hsorted
    exact ⟨by simp, hsorted⟩
  | cons k rest ih =>
    intro p hnodup hdisj hsorted
    simp only [List.map_cons, List.foldl_cons]
    have hstep : (updateStep cfg p (.down k 0)).1.downKeys
        = sortKeys (p.1.downKeys ++ [k]) := by
      unfold updateStep
      dsimp only
      exact down_new_downKeys_comb cfg p.1 k 0 (hdisj k (List.mem_cons_self k rest)) hmode
    have hmem : ∀ a, a ∈ (updateStep cfg p (.down k 0)).1.downKeys ↔
        a ∈ p.1.downKeys ∨ a = k := by
      intro a
      rw [hstep]
      rw [(sortKeys_perm (p.1.downKeys ++ [k])).mem_iff]
      simp
    have hih := ih (updateStep cfg p (.down k 0))
      (List.nodup_cons.mp hnodup).2
      (by
        intro k' hk'
        rw [hmem k']
        push_neg
        constructor
        · exact hdisj k' (List.mem_cons_of_mem k hk')
        · intro hkk
          exact absurd (hkk ▸ hk') (List.nodup_cons.mp hnodup).1)
      (by rw [hstep]; exact sortKeys_sorted _)
    refine ⟨hih.1.trans ?_, hih.2⟩
    rw [hstep]
    calc List.Perm (sortKeys (p.1.downKeys ++ [k]) ++ rest)
          ((p.1.downKeys ++ [k]) ++ rest) :=
        (sortKeys_perm (p.1.downKeys ++ [k])).append_right rest
      _ = p.1.downKeys ++ k :: rest := by rw [List.append_assoc]; rfl

theorem seq_press_invariant (cfg : LedgerCfg) (hmode : cfg.multiKeyMode = "sequence") :
    ∀ (ks : List String) (p : KeyLedger × Bool), ks.Nodup →
      (∀ k ∈ ks, k ∉ p.1.downKeys) →
      ((ks.map (fun k => KeyEvent.down k 0)).foldl (updateStep cfg) p).1.downKeys
        = p.1.downKeys ++ ks := by
  intro ks
  induction ks with
  | nil => intro p _ _; simp
  | cons k rest ih =>
    intro p hnodup hdisj
    simp only [List.map_cons, List.foldl_cons]
    have hstep : (updateStep cfg p (.down k 0)).1.downKeys = p.1.downKeys ++ [k] := by
      unfold updateStep
      dsimp only
      exact down_new_downKeys_seq cfg p.1 k 0 (hdisj k (List.mem_cons_self k rest)) hmode
    rw [ih (updateStep cfg p (.down k 0)) (List.nodup_cons.mp hnodup).2
      (by
        intro k' hk'
        rw [hstep]
        simp only [List.mem_append, List.mem_singleton]
        push_neg
        constructor
        · exact hdisj k' (List.mem_cons_of_mem k hk')
        · intro hkk
          exact absurd (hkk ▸ hk') (List.nodup_cons.mp hnodup).1)]
    rw [hstep, List.append_assoc]
    rfl

/-- C7: in combination mode, pressing a set of (distinct) keys in any order
yields the identical canonical Chord string, the keys joined by `+` in
ascending order; in sequence mode the down-key list after the presses is the
press order itself, and the two press orders of `KEY_A`, `KEY_B` yield
different Chord strings. -/
theorem chord_canonicalization :
    (∀ (cfg : LedgerCfg) (ks1 ks2 : List String), cfg.multiKeyMode = "combination" →
        ks1.Nodup → List.Perm ks1 ks2 →
        pressedChord cfg ks1 = pressedChord cfg ks2 ∧
        pressedChord cfg ks1 = plusJoin (sortKeys ks1)) ∧
    (∀ (cfg : LedgerCfg) (ks : List String), cfg.multiKeyMode = "sequence" → ks.Nodup →
        (pressedLedger cfg ks).downKeys = ks) ∧
    (pressedChord seqCfg ["KEY_A", "KEY_B"] ≠ pressedChord seqCfg ["KEY_B", "KEY_A"]) := by
  have hdk : ∀ (cfg : LedgerCfg) (ks : List String), cfg.multiKeyMode = "combination" →
      ks.Nodup → (pressedLedger cfg ks).downKeys = sortKeys ks := by
    intro cfg ks hmode hnodup
    have hinv := comb_press_invariant cfg hmode ks (keyLedgerInit 0, false) hnodup
      (by intro k _ hk; cases hk) (by constructor)
    have hperm : List.Perm (pressedLedger cfg ks).downKeys ks := by
      have := hinv.1
      simpa [pressedLedger, KeyLedger.update] using this
    have hsorted : (pressedLedger cfg ks).downKeys.Pairwise keyLeP := by
      have := hinv.2
      simpa [pressedLedger, KeyLedger.update] using this
    exact List.eq_of_perm_of_sorted
      (hperm.trans (sortKeys_perm ks).symm) hsorted (sortKeys_sorted ks)
  refine ⟨?_, ?_, ?_⟩
  · intro cfg ks1 ks2 hmode hnodup hperm
    have h1 : (pressedLedger cfg ks1).downKeys = sortKeys ks1 := hdk cfg ks1 hmode hnodup
    have h2 : (pressedLedger cfg ks2).downKeys = sortKeys ks2 :=
      hdk cfg ks2 hmode (hperm.nodup_iff.mp hnodup)
    have hsort : sortKeys ks1 = sortKeys ks2 :=
      List.eq_of_perm_of_sorted
        ((sortKeys_perm ks1).trans (hperm.trans (sortKeys_perm ks2).symm))
        (sortKeys_sorted ks1) (sortKeys_sorted ks2)
    constructor
    · unfold pressedChord KeyLedger.downKeysStr
      rw [h1, h2, hsort]
    · unfold pressedChord KeyLedger.downKeysStr
      rw [h1]
  · intro cfg ks hmode hnodup
    have := seq_press_invariant cfg hmode ks (keyLedgerInit 0, false) hnodup
      (by intro k _ hk; cases hk)
    simpa [pressedLedger, KeyLedger.update] using this
  · have hA : pressedChord seqCfg ["KEY_A", "KEY_B"] = "KEY_A+KEY_B" := by
      with_unfolding_all rfl
    have hB : pressedChord seqCfg ["KEY_B", "KEY_A"] = "KEY_B+KEY_A" := by
      with_unfolding_all rfl
    rw [hA, hB]
    decide

/-- C7 witness: pressing `KEY_B` then `KEY_A` in combination mode gives the
same chord as pressing `KEY_A` then `KEY_B`, namely the ascending join. -/
theorem chord_canonicalization_witness :
    pressedChord c4cfg ["KEY_B", "KEY_A"] = pressedChord c4cfg ["KEY_A", "KEY_B"] ∧
    pressedChord c4cfg ["KEY_B", "KEY_A"] = plusJoin (sortKeys ["KEY_B", "KEY_A"]) :=
  chord_canonicalization.1 c4cfg ["KEY_B", "KEY_A"] ["KEY_A", "KEY_B"] rfl
    (by decide) (by decide)



theorem parseVarsGo_no_execute (cmd0 : String) (j : Layer) :
    ∀ (chars : List Char) (esc inv : Bool) (vn acc : List Char) (c : String),
      Effect.execute c ∉ (parseVarsGo cmd0 j chars esc inv vn acc).2 := by
  intro chars
  induction chars with
  | nil => intro esc inv vn acc c h; cases h
  | cons ch rest ih =>
    intro esc inv vn acc c
    unfold parseVarsGo
    split_ifs with h1 h2 h3 h4 h5
    · exact ih false inv vn (acc ++ [ch]) c
    · exact ih true inv vn acc c
    · exact ih false true vn acc c
    · cases hv : varsLookup j ⟨vn⟩ with
      | some v => exact ih false false [] (acc ++ v.data) c
      | none => intro hmem; simp at hmem
    · exact ih false inv (vn ++ [ch]) acc c
    · exact ih false inv vn (acc ++ [ch]) c

theorem parseVars_no_execute (cmd : String) (j : Layer) (c : String) :
    Effect.execute c ∉ (parseVars cmd j).2 :=
  parseVarsGo_no_execute cmd j cmd.data false false [] [] c

theorem setLeds_ok_shape (d : Device) (fs : Fs) (d2 : Device) (fs2 : Fs)
    (effs : List Effect) (h : setLeds d fs = .ok (d2, fs2, effs)) :
    (∀ c, Effect.execute c ∉ effs) ∧ d2.currentLayer = d.currentLayer ∧
    (fs2 = fs ∨ fs2 = writeJsonLeds fs d.currentLayer []) := by
  unfold setLeds at h
  cases hc : currentLayerJson d fs with
  | error e => rw [hc] at h; cases h
  | ok p =>
    obtain ⟨jj, dd⟩ := p
    rw [hc] at h
    have hdd : dd.currentLayer = d.currentLayer ∧ dd.capLeds = d.capLeds := by
      unfold currentLayerJson at hc
      cases hcache : d.cache with
      | some x => rw [hcache] at hc; cases hc; exact ⟨rfl, rfl⟩
      | none =>
        rw [hcache] at hc
        cases hlk : fs.lookup d.currentLayer with
        | some y => rw [hlk] at hc; cases hc; exact ⟨rfl, rfl⟩
        | none => rw [hlk] at hc; cases hc
    dsimp only at h
    cases hld : jj.leds with
    | some onLeds =>
      rw [hld] at h
      cases hcap : dd.capLeds with
      | some leds =>
        rw [hcap] at h
        cases h
        refine ⟨?_, hdd.1, Or.inl rfl⟩
        intro c hmem
        rcases List.mem_map.mp hmem with ⟨led, _, habs⟩
        cases habs
      | none =>
        rw [hcap] at h
        cases h
        refine ⟨?_, hdd.1, Or.inl rfl⟩
        intro c hmem
        cases hmem
    | none =>
      rw [hld] at h
      cases hcap : dd.capLeds with
      | some leds =>
        rw [hcap] at h
        cases h
        refine ⟨?_, hdd.1, Or.inr (by rw [hdd.1])⟩
        intro c hmem
        rcases List.mem_cons.mp hmem with habs | hmem'
        · cases habs
        · rcases List.mem_map.mp hmem' with ⟨led, _, habs⟩
          cases habs
      | none =>
        rw [hcap] at h
        cases h



theorem setLeds_error_iff (d : Device) (fs : Fs) (jA : Layer)
    (hc : d.cache = none) (hl : fs.lookup d.currentLayer = some jA) :
    (∃ e, setLeds d fs = .error e) ↔ (jA.leds = none ∧ d.capLeds = none) := by
  unfold setLeds currentLayerJson
  rw [hc, hl]
  dsimp only
  cases hld : jA.leds with
  | some onLeds =>
    cases hcap : d.capLeds with
    | some leds => simp [hld, hcap]
    | none => simp [hld, hcap]
  | none =>
    cases hcap : d.capLeds with
    | some leds => simp [hld, hcap]
    | none => simp [hld, hcap]

theorem ensure_lookup_isSome (fs : Fs) (jfile : String) :
    (((if (fs.lookup jfile).isNone then createLayer fs jfile else fs).lookup jfile)).isSome
      = true := by
  split_ifs with hmiss
  · unfold createLayer
    simp [List.lookup]
  · cases h : fs.lookup jfile with
    | none => rw [h] at hmiss; exact absurd rfl hmiss
    | some x => simp

theorem lookup_isSome_writeJsonLeds (fs : Fs) (n m : String) (v : List Nat)
    (h : (fs.lookup m).isSome = true) :
    (((writeJsonLeds fs n v).lookup m)).isSome = true := by
  unfold writeJsonLeds
  dsimp only
  cases hmn : m == n with
  | true => simp [List.lookup, hmn]
  | false => simp [List.lookup, hmn, h]

/-- C8: the claim says a layer-switch action always updates the current layer
and refreshes the LED state.  The refresh can instead raise: when the target
layer document has no `leds` property and the device has no LED capability,
`setLeds` indexes `capabilities()[17]` unguarded and the whole processing
step dies with a `KeyError` (after the layer was already switched), so no
indicator state is applied.  Concrete input: binding `k = "layer:empty"`,
target `empty.json` without `leds`, device without LEDs. -/
theorem layer_switch_led_refresh_keyerror :
    (parseVars "layer:empty" c8layer).1 = "layer:empty" ∧
    pyStartsWith "layer:empty" "layer:" = true ∧
    processKeycode ⟨false, false⟩ c8dev "k" c8fs = .error "KeyError: 17" :=
  ⟨rfl, rfl, rfl⟩

/-- C8 (amended): for every history whose resolved binding starts with the
layer-switch marker, processing never emits an `execute` effect (no external
process); the run is exactly: switch the current layer to the target (cache
invalidated), creating the target document when missing, then refresh the
LEDs via `setLeds` on the new layer; any completed run has the device on the
target layer with the target document present in the store; and the run
raises if and only if the (possibly just created) target layer document has
no `leds` set and the device has no LED capability. -/
theorem layer_switch_updates_and_refreshes
    (cfg : ExecCfg) (d0 d : Device) (k raw value jfile : String) (fs fs1 : Fs)
    (j : Layer) (crEffs : List Effect)
    (h1 : currentLayerJson d0 fs = .ok (j, d))
    (h2 : j.bindings.lookup k = some raw)
    (hv : (parseVars raw j).1 = value)
    (h3 : pyStartsWith value "layer:" = true)
    (hj : jfile = lastColonSeg value ++ ".json")
    (hfs1 : fs1 = (if (fs.lookup jfile).isNone then createLayer fs jfile else fs))
    (hcr : crEffs = (if (fs.lookup jfile).isNone
            then [Effect.print ("Created layer file: " ++ jfile)] else [])) :
    (∀ c : String, Effect.execute c ∉ effectsOf (processKeycode cfg d0 k fs)) ∧
    processKeycode cfg d0 k fs
      = Except.map (fun r => (r.1, r.2.1, (parseVars raw j).2 ++ crEffs ++ r.2.2))
          (setLeds (setCurrentLayer d jfile) fs1) ∧
    (∀ d2 fs2 effs, processKeycode cfg d0 k fs = .ok (d2, fs2, effs) →
        d2.currentLayer = jfile ∧ (fs2.lookup jfile).isSome = true) ∧
    ((∃ e, processKeycode cfg d0 k fs = .error e) ↔
        (((fs1.lookup jfile).getD ⟨[], none, none⟩).leds = none ∧ d.capLeds = none)) := by
  subst hv
  subst hj
  subst hfs1
  subst hcr
  have hens := ensure_lookup_isSome fs (lastColonSeg (parseVars raw j).1 ++ ".json")
  have heq : processKeycode cfg d0 k fs
      = Except.map (fun r => (r.1, r.2.1, (parseVars raw j).2
            ++ (if (fs.lookup (lastColonSeg (parseVars raw j).1 ++ ".json")).isNone
                then [Effect.print ("Created layer file: "
                      ++ (lastColonSeg (parseVars raw j).1 ++ ".json"))] else [])
            ++ r.2.2))
          (setLeds (setCurrentLayer d (lastColonSeg (parseVars raw j).1 ++ ".json"))
            (if (fs.lookup (lastColonSeg (parseVars raw j).1 ++ ".json")).isNone
             then createLayer fs (lastColonSeg (parseVars raw j).1 ++ ".json") else fs)) := by
    unfold processKeycode
    rw [h1]
    dsimp only
    rw [h2]
    dsimp only
    rw [if_pos h3]
    cases hsl : setLeds (setCurrentLayer d (lastColonSeg (parseVars raw j).1 ++ ".json"))
        (if (fs.lookup (lastColonSeg (parseVars raw j).1 ++ ".json")).isNone
         then createLayer fs (lastColonSeg (parseVars raw j).1 ++ ".json") else fs) with
    | error e => rfl
    | ok r =>
      obtain ⟨a, b, c⟩ := r
      rfl
  refine ⟨?_, heq, ?_, ?_⟩
  · intro c
    cases hsl : setLeds (setCurrentLayer d (lastColonSeg (parseVars raw j).1 ++ ".json"))
        (if (fs.lookup (lastColonSeg (parseVars raw j).1 ++ ".json")).isNone
         then createLayer fs (lastColonSeg (parseVars raw j).1 ++ ".json") else fs) with
    | error e =>
      rw [heq, hsl]
      intro hmem
      simp [Except.map, effectsOf] at hmem
    | ok r =>
      obtain ⟨d2, fs2, effs⟩ := r
      rw [heq, hsl]
      intro hmem
      simp only [Except.map, effectsOf, List.append_assoc, List.mem_append] at hmem
      rcases hmem with hpv | hcr | hled
      · exact parseVars_no_execute raw j c hpv
      · revert hcr
        split_ifs
        · intro hcr; simp at hcr
        · intro hcr; cases hcr
      · exact (setLeds_ok_shape _ _ d2 fs2 effs hsl).1 c hled
  · intro d2 fs2 effs h
    rw [heq] at h
    cases hsl : setLeds (setCurrentLayer d (lastColonSeg (parseVars raw j).1 ++ ".json"))
        (if (fs.lookup (lastColonSeg (parseVars raw j).1 ++ ".json")).isNone
         then createLayer fs (lastColonSeg (parseVars raw j).1 ++ ".json") else fs) with
    | error e => rw [hsl] at h; cases h
    | ok r =>
      obtain ⟨a, b, c⟩ := r
      rw [hsl] at h
      simp only [Except.map, Except.ok.injEq, Prod.mk.injEq] at h
      obtain ⟨hda, hdb, hdc⟩ := h
      subst hda
      subst hdb
      constructor
      · exact (setLeds_ok_shape _ _ _ _ _ hsl).2.1
      · rcases (setLeds_ok_shape _ _ _ _ _ hsl).2.2 with hfs | hfs
        · rw [hfs]
          exact hens
        · rw [hfs]
          exact lookup_isSome_writeJsonLeds _ _ _ _ hens
  · obtain ⟨jA, hjA⟩ := Option.isSome_iff_exists.mp hens
    have hiff := setLeds_error_iff
      (setCurrentLayer d (lastColonSeg (parseVars raw j).1 ++ ".json"))
      (if (fs.lookup (lastColonSeg (parseVars raw j).1 ++ ".json")).isNone
       then createLayer fs (lastColonSeg (parseVars raw j).1 ++ ".json") else fs)
      jA rfl hjA
    constructor
    · rintro ⟨e, he⟩
      rw [heq] at he
      cases hsl : setLeds (setCurrentLayer d (lastColonSeg (parseVars raw j).1 ++ ".json"))
          (if (fs.lookup (lastColonSeg (parseVars raw j).1 ++ ".json")).isNone
           then createLayer fs (lastColonSeg (parseVars raw j).1 ++ ".json") else fs) with
      | ok r =>
        rw [hsl] at he
        obtain ⟨a, b, c⟩ := r
        simp [Except.map] at he
      | error e2 =>
        have hres := hiff.mp ⟨e2, hsl⟩
        rw [hjA]
        simpa using hres
    · intro hrhs
      rw [hjA] at hrhs
      simp only [Option.getD_some] at hrhs
      obtain ⟨e, he⟩ := hiff.mpr ⟨hrhs.1, hrhs.2⟩
      refine ⟨e, ?_⟩
      rw [heq, he]
      rfl



/-- C8 witness: switching to the existing layer `two.json` (which has LED 1
set) on a device with LEDs: the run is exactly the switch followed by the
LED refresh. -/
theorem layer_switch_updates_and_refreshes_witness :
    processKeycode ⟨false, false⟩ c8wdev "k" c8wfs
      = Except.map
          (fun r => (r.1, r.2.1, (parseVars "layer:two" c8wlayer).2 ++ [] ++ r.2.2))
          (setLeds (setCurrentLayer c8wdev "two.json") c8wfs) :=
  (layer_switch_updates_and_refreshes ⟨false, false⟩ c8wdev c8wdev "k" "layer:two"
    "layer:two" "two.json" c8wfs c8wfs c8wlayer [] rfl rfl rfl rfl rfl rfl rfl).2.1

end Keebie
